import Mathlib

/-!
Verification of the prayer-time extraction core of `src/extractor/pdf_parser.py`.

The two extraction paths of the `PDFParser` class are embedded shallowly:

* the table path `parse_table_rows` / `_find_header_row` / `_parse_single_row`,
  with the external collaborators `parse_date` and `clean_time` modelled as
  function fields of a `Collabs` structure returning `Except Unit _` so that a
  collaborator that raises an exception can be represented;
* the free-text fallback path `extract_from_text_pattern`, whose fixed regular
  expression is embedded as an explicit backtracking matcher over `List Char`
  producing, in the priority order of the regex engine, every alternative for
  each sub-pattern; a match attempt takes the first complete alternative, and
  the scan over the text re-tries at the next character after a failure, as
  `re.findall` does.

Table cells are `Option String` (a cell extracted from a PDF may be missing);
Python truthiness tests on cells and strings are translated explicitly.
-/

/-- Python `\s` whitespace class, restricted to its ASCII members, which are the
only whitespace characters the parser's inputs can contain. -/
def isPySpace (c : Char) : Bool :=
  c = ' ' || c = '\t' || c = '\n' || c = '\r' || c = '\x0b' || c = '\x0c'

/-- Python `str.strip()`: remove leading and trailing whitespace. -/
def pyStrip (s : String) : String :=
  String.mk (((s.data.dropWhile isPySpace).reverse.dropWhile isPySpace).reverse)

/-- Python `str.lower()` on ASCII text. -/
def pyLower (s : String) : String := String.mk (s.data.map Char.toLower)

/-- Python `str.upper()` on ASCII text. -/
def pyUpper (s : String) : String := String.mk (s.data.map Char.toUpper)

/-- Substring test on character lists: Python's `needle in haystack`. -/
def hasSubstr (needle : List Char) : List Char → Bool
  | [] => needle.isEmpty
  | c :: rest => needle.isPrefixOf (c :: rest) || hasSubstr needle rest

/-- Python `int` on a string of decimal digits. -/
def strToNat (s : String) : Nat :=
  s.data.foldl (fun n c => 10 * n + (c.toNat - 48)) 0

/-- Python `f"{n:02d}"`: decimal rendering zero-padded to width two. -/
def pad2 (n : Nat) : String := if n < 10 then "0" ++ Nat.repr n else Nat.repr n

/-- The dictionary built for one day of prayer times. -/
structure PrayerRecord where
  date : String
  fajr : String
  sunrise : String
  dhuhr : String
  asr : String
  maghrib : String
  isha : String
deriving DecidableEq, Repr

/-- The external normalization collaborators imported by `pdf_parser.py`
(`parse_date` from `date_utils`, `clean_time` from `text_utils`).  Each may
raise an exception (`Except.error`), and `parse_date` may also return a falsy
value (`none`, or `some ""`) to signal failure. -/
structure Collabs where
  parse_date : String → String → Except Unit (Option String)
  clean_time : String → Except Unit String

/-- `str(row[0]).strip() if row[0] else ""`: the date cell of a row. -/
def cellDateStr (c : Option String) : String :=
  match c with
  | none => ""
  | some s => if s = "" then "" else pyStrip s

/-- `str(row[i] or "")`: a time cell of a row. -/
def cellStrOr (c : Option String) : String := c.getD ""

/-- `' '.join([str(cell).upper() if cell else '' for cell in row])`. -/
def headerText (row : List (Option String)) : String :=
  String.intercalate " "
    (row.map fun c =>
      match c with
      | none => ""
      | some s => if s = "" then "" else pyUpper s)

/-- The header test of `_find_header_row`: the row is non-empty, has at least 6
cells, and its joined uppercased text contains "MAGHRIB" together with "FAJR"
or "DATE". -/
def isHeaderRow (row : List (Option String)) : Bool :=
  !row.isEmpty && decide (6 ≤ row.length) &&
    (hasSubstr "FAJR".data (headerText row).data
      || hasSubstr "DATE".data (headerText row).data) &&
    hasSubstr "MAGHRIB".data (headerText row).data

/-- `_find_header_row`: index of the first row satisfying the header test. -/
def find_header_row : List (List (Option String)) → Option Nat
  | [] => none
  | r :: rs =>
    if isHeaderRow r then some 0 else (find_header_row rs).map (fun n => n + 1)

/-- The dictionary construction and final acceptance gate of
`_parse_single_row`: the record is kept only when fajr, maghrib and isha are
all non-empty. -/
def assembleRecord (date fajr sunrise dhuhr asr maghrib isha : String) :
    Option PrayerRecord :=
  if fajr ≠ "" ∧ maghrib ≠ "" ∧ isha ≠ "" then
    some ⟨date, fajr, sunrise, dhuhr, asr, maghrib, isha⟩
  else none

/-- The body of the `try` block of `_parse_single_row`: date-token checks, the
call to `parse_date`, the six `clean_time` calls, and the acceptance gate.  An
exception raised by a collaborator propagates as `Except.error`. -/
def parseSingleRowBody (C : Collabs) (row : List (Option String))
    (month : String) : Except Unit (Option PrayerRecord) :=
  if cellDateStr (row.getD 0 none) = ""
      ∨ pyLower (cellDateStr (row.getD 0 none)) = "none"
      ∨ pyLower (cellDateStr (row.getD 0 none)) = "null"
      ∨ pyLower (cellDateStr (row.getD 0 none)) = "" then
    .ok none
  else if !((cellDateStr (row.getD 0 none)).data.any Char.isDigit) then .ok none
  else
    match C.parse_date (cellDateStr (row.getD 0 none)) month with
    | .error e => .error e
    | .ok none => .ok none
    | .ok (some parsed_date) =>
      if parsed_date = "" then .ok none
      else
        match C.clean_time (cellStrOr (row.getD 1 none)) with
        | .error e => .error e
        | .ok fajr =>
          match C.clean_time (cellStrOr (row.getD 2 none)) with
          | .error e => .error e
          | .ok sunrise =>
            match C.clean_time (cellStrOr (row.getD 3 none)) with
            | .error e => .error e
            | .ok dhuhr =>
              match C.clean_time (cellStrOr (row.getD 4 none)) with
              | .error e => .error e
              | .ok asr =>
                match C.clean_time (cellStrOr (row.getD 5 none)) with
                | .error e => .error e
                | .ok maghrib =>
                  if 6 < row.length then
                    match C.clean_time (cellStrOr (row.getD 6 none)) with
                    | .error e => .error e
                    | .ok isha =>
                      .ok (assembleRecord parsed_date fajr sunrise dhuhr asr
                            maghrib isha)
                  else
                    .ok (assembleRecord parsed_date fajr sunrise dhuhr asr
                          maghrib "")

/-- `_parse_single_row`: rows shorter than 6 cells are rejected up front; any
exception raised inside the body is caught and turned into a rejection. -/
def parse_single_row (C : Collabs) (row : List (Option String))
    (month : String) : Option PrayerRecord :=
  if row.length < 6 then none
  else
    match parseSingleRowBody C row month with
    | .error _ => none
    | .ok v => v

/-- The data-row loop of `parse_table_rows`: parse each row in order and
append the accepted records. -/
def parseRowsLoop (C : Collabs) (month : String) :
    List (List (Option String)) → List PrayerRecord
  | [] => []
  | r :: rs =>
    match parse_single_row C r month with
    | some d => d :: parseRowsLoop C month rs
    | none => parseRowsLoop C month rs

/-- `parse_table_rows`: empty or one-row tables yield nothing; otherwise the
rows strictly after the first header row are parsed in order. -/
def parse_table_rows (C : Collabs) (table : List (List (Option String)))
    (month : String) : List PrayerRecord :=
  if table.length < 2 then []
  else
    match find_header_row table with
    | none => []
    | some i => parseRowsLoop C month (table.drop (i + 1))

/-- The ten capture groups of the fallback regular expression, in group order:
`(\d{1,2})-(Abbrev) | (Abbrev)-(\d{1,2})`, then four mandatory and two
optional time-token captures.  An unmatched group captures `""`, as in
`re.findall`. -/
structure PatMatch where
  day1 : String
  mon1 : String
  mon2 : String
  day2 : String
  fajr : String
  sunrise : String
  dhuhr : String
  asr : String
  maghrib : String
  isha : String
deriving DecidableEq, Repr

/-- Match one literal character. -/
def matchLit (c : Char) : List Char → Option (List Char)
  | [] => none
  | x :: r => if x = c then some r else none

/-- `\d{1,2}` (greedy): the alternatives, two digits before one digit. -/
def matchDigits12 (cs : List Char) : List (List Char × List Char) :=
  match cs with
  | [] => []
  | a :: rest =>
    if a.isDigit then
      match rest with
      | b :: rest2 =>
        if b.isDigit then [([a, b], rest2), ([a], rest)] else [([a], rest)]
      | [] => [([a], [])]
    else []

/-- `\d{2}`: exactly two digits. -/
def matchDigits2 (cs : List Char) : Option (List Char × List Char) :=
  match cs with
  | a :: b :: rest =>
    if a.isDigit && b.isDigit then some ([a, b], rest) else none
  | _ => none

/-- `[APap]` under `re.IGNORECASE`. -/
def isAP (c : Char) : Bool := c = 'A' || c = 'P' || c = 'a' || c = 'p'

/-- Match one `[APap]` character. -/
def matchAP : List Char → Option (Char × List Char)
  | [] => none
  | c :: r => if isAP c then some (c, r) else none

/-- Match one `[Mm]` character. -/
def matchM : List Char → Option (Char × List Char)
  | [] => none
  | c :: r => if c = 'M' || c = 'm' then some (c, r) else none

/-- The twelve month abbreviations, uppercased. -/
def monthAbbrevsUpper : List (List Char) :=
  [['J','A','N'], ['F','E','B'], ['M','A','R'], ['A','P','R'],
   ['M','A','Y'], ['J','U','N'], ['J','U','L'], ['A','U','G'],
   ['S','E','P'], ['O','C','T'], ['N','O','V'], ['D','E','C']]

/-- `(Jan|Feb|...|Dec)` under `re.IGNORECASE`; the capture keeps the original
characters. -/
def matchMonthAbbrev (cs : List Char) : Option (List Char × List Char) :=
  match cs with
  | a :: b :: c :: r =>
    if monthAbbrevsUpper.contains [a.toUpper, b.toUpper, c.toUpper] then
      some ([a, b, c], r)
    else none
  | _ => none

/-- `\s+`: at least one whitespace character, consumed greedily (the pattern
following every `\s+` here starts with a digit, so maximal munch is exact). -/
def matchSpaces1 : List Char → Option (List Char)
  | [] => none
  | c :: r => if isPySpace c then some (r.dropWhile isPySpace) else none

/-- The `[Mm]?` tail of a time token: take the `M` when present (priority),
or leave it. -/
def timeTokenTailM (base : List Char) (r5 : List Char) :
    List (List Char × List Char) :=
  match matchM r5 with
  | none => [(base, r5)]
  | some mr => [(base ++ [mr.1], mr.2), (base, r5)]

/-- The `\s*[APap][Mm]?` tail of a time token after `\d{1,2}:\d{2}`. -/
def timeTokenTailAP (d ab r3 : List Char) : List (List Char × List Char) :=
  match matchAP (r3.dropWhile isPySpace) with
  | none => []
  | some pr =>
    timeTokenTailM (d ++ ':' :: ab ++ r3.takeWhile isPySpace ++ [pr.1]) pr.2

/-- The `\d{2}\s*[APap][Mm]?` tail of a time token after `\d{1,2}:`. -/
def timeTokenTailMin (d r2 : List Char) : List (List Char × List Char) :=
  match matchDigits2 r2 with
  | none => []
  | some abr => timeTokenTailAP d abr.1 abr.2

/-- One time-token capture `(\d{1,2}:\d{2}\s*[APap][Mm]?)`: the alternatives
in regex priority order (longer digit run first, trailing `M` taken first). -/
def matchTimeToken (cs : List Char) : List (List Char × List Char) :=
  (matchDigits12 cs).flatMap fun dr =>
    match matchLit ':' dr.2 with
    | none => []
    | some r2 => timeTokenTailMin dr.1 r2

/-- `\s+` followed by a time-token capture. -/
def matchSepTime (cs : List Char) : List (List Char × List Char) :=
  match matchSpaces1 cs with
  | none => []
  | some r => matchTimeToken r

/-- The day-marker alternation
`(\d{1,2})-(Abbrev)|(Abbrev)-(\d{1,2})`, producing the four day/month
captures; the first alternative takes priority. -/
def matchDayMarker (cs : List Char) :
    List ((String × String × String × String) × List Char) :=
  ((matchDigits12 cs).flatMap fun dr =>
    match matchLit '-' dr.2 with
    | none => []
    | some r2 =>
      match matchMonthAbbrev r2 with
      | none => []
      | some (mo, r3) => [((String.mk dr.1, String.mk mo, "", ""), r3)])
  ++
  (match matchMonthAbbrev cs with
   | none => []
   | some (mo, r1) =>
     match matchLit '-' r1 with
     | none => []
     | some r2 =>
       (matchDigits12 r2).map fun dr =>
         (("", "", String.mk mo, String.mk dr.1), dr.2))

/-- The mandatory part of the pattern: day marker, `\s+`, then the four
mandatory time tokens separated by `\s+`.  Maghrib and isha captures are left
empty. -/
def matchLeading (cs : List Char) : List (PatMatch × List Char) :=
  (matchDayMarker cs).flatMap fun dm =>
    match matchSpaces1 dm.2 with
    | none => []
    | some r1 =>
      (matchTimeToken r1).flatMap fun fj =>
        (matchSepTime fj.2).flatMap fun sr =>
          (matchSepTime sr.2).flatMap fun dh =>
            (matchSepTime dh.2).map fun ar =>
              ({ day1 := dm.1.1, mon1 := dm.1.2.1, mon2 := dm.1.2.2.1,
                 day2 := dm.1.2.2.2,
                 fajr := String.mk fj.1, sunrise := String.mk sr.1,
                 dhuhr := String.mk dh.1, asr := String.mk ar.1,
                 maghrib := "", isha := "" }, ar.2)

/-- The two trailing optional groups `(?:\s+(tok))?(?:\s+(tok))?`: all
backtracking alternatives in priority order — both groups matched, only the
first, only the second, neither. -/
def matchOptTail (cs : List Char) :
    List ((String × String) × List Char) :=
  ((matchSepTime cs).flatMap fun mg =>
    ((matchSepTime mg.2).map fun ih =>
      ((String.mk mg.1, String.mk ih.1), ih.2))
    ++ [((String.mk mg.1, ""), mg.2)])
  ++ ((matchSepTime cs).map fun ih => (("", String.mk ih.1), ih.2))
  ++ [(("", ""), cs)]

/-- All full-pattern alternatives at the current position, in priority
order. -/
def matchAttempt (cs : List Char) : List (PatMatch × List Char) :=
  (matchLeading cs).flatMap fun pr =>
    (matchOptTail pr.2).map fun t =>
      ({ pr.1 with maghrib := t.1.1, isha := t.1.2 }, t.2)

/-- One match attempt at the current position: the first complete alternative,
as a backtracking regex engine returns it. -/
def matchPatternAt (cs : List Char) : Option (PatMatch × List Char) :=
  (matchAttempt cs).head?

/-- The scan of `re.findall`: try to match at each position; on success emit
the match and continue after it, otherwise advance one character.  The fuel is
one more than the text length, which the scan never exhausts because every
match consumes at least one character. -/
def findAllAux : Nat → List Char → List PatMatch
  | 0, _ => []
  | _ + 1, [] => []
  | fuel + 1, c :: rest =>
    match matchPatternAt (c :: rest) with
    | some (m, r) => m :: findAllAux fuel r
    | none => findAllAux fuel rest

/-- `re.findall(pattern, text, re.IGNORECASE)`. -/
def findAllStr (text : String) : List PatMatch :=
  findAllAux (text.data.length + 1) text.data

/-- The record built from one match of the fallback pattern:
`day = day1 or day2`, `date = f"{month}-{int(day):02d}"`, the four mandatory
tokens stripped, and maghrib/isha stripped when present, `""` otherwise. -/
def mkRecord (month : String) (m : PatMatch) : PrayerRecord :=
  { date := month ++ "-" ++ pad2 (strToNat (if m.day1 ≠ "" then m.day1 else m.day2))
  , fajr := pyStrip m.fajr
  , sunrise := pyStrip m.sunrise
  , dhuhr := pyStrip m.dhuhr
  , asr := pyStrip m.asr
  , maghrib := if m.maghrib = "" then "" else pyStrip m.maghrib
  , isha := if m.isha = "" then "" else pyStrip m.isha }

/-- The emission loop of `extract_from_text_pattern`: one record appended per
match, in match order. -/
def extractLoop (month : String) : List PatMatch → List PrayerRecord
  | [] => []
  | m :: ms => mkRecord month m :: extractLoop month ms

/-- `extract_from_text_pattern`. -/
def extract_from_text_pattern (text month : String) : List PrayerRecord :=
  extractLoop month (findAllStr text)

/-- Concrete collaborators whose date resolver formats month-day and whose
time cleaner is the identity. -/
def okCollabs : Collabs :=
  { parse_date := fun d m => .ok (some (m ++ "-" ++ d))
  , clean_time := fun s => .ok s }

/-- Concrete collaborators whose time cleaner raises on the marker cell
"BOOM" and otherwise acts as the identity. -/
def boomCollabs : Collabs :=
  { parse_date := fun d m => .ok (some (m ++ "-" ++ d))
  , clean_time := fun s => if s = "BOOM" then .error () else .ok s }

/-- A header row naming all seven columns. -/
def sampleHeader : List (Option String) :=
  [some "DATE", some "FAJR", some "SUNRISE", some "DHUHR", some "ASR",
   some "MAGHRIB", some "ISHA"]

/-- A well-formed data row for day 1. -/
def goodRow1 : List (Option String) :=
  [some "1", some "5:00 AM", some "6:15 AM", some "12:30 PM", some "3:45 PM",
   some "6:30 PM", some "7:45 PM"]

/-- A data row whose fajr cell makes the time cleaner of `boomCollabs`
raise. -/
def badRow : List (Option String) :=
  [some "2", some "BOOM", some "6:16 AM", some "12:31 PM", some "3:46 PM",
   some "6:31 PM", some "7:46 PM"]

/-- A well-formed data row for day 3. -/
def goodRow3 : List (Option String) :=
  [some "3", some "5:02 AM", some "6:17 AM", some "12:32 PM", some "3:47 PM",
   some "6:32 PM", some "7:47 PM"]

/-- A table with a header, a good row, a row that raises, and another good
row. -/
def sampleTable : List (List (Option String)) :=
  [sampleHeader, goodRow1, badRow, goodRow3]

theorem parseRowsLoop_eq_filterMap (C : Collabs) (month : String)
    (rows : List (List (Option String))) :
    parseRowsLoop C month rows =
      rows.filterMap (fun r => parse_single_row C r month) := by
  induction rows with
  | nil => rfl
  | cons r rs ih =>
    simp only [parseRowsLoop, List.filterMap_cons]
    cases parse_single_row C r month <;> simp [ih]

theorem extractLoop_eq_map (month : String) (ms : List PatMatch) :
    extractLoop month ms = ms.map (mkRecord month) := by
  induction ms with
  | nil => rfl
  | cons m ms ih => simp [extractLoop, ih]

theorem parseRowsLoop_append (C : Collabs) (month : String)
    (xs ys : List (List (Option String))) :
    parseRowsLoop C month (xs ++ ys) =
      parseRowsLoop C month xs ++ parseRowsLoop C month ys := by
  simp [parseRowsLoop_eq_filterMap, List.filterMap_append]

theorem mem_parseRowsLoop {C : Collabs} {month : String}
    {rows : List (List (Option String))} {rec : PrayerRecord}
    (h : rec ∈ parseRowsLoop C month rows) :
    ∃ r ∈ rows, parse_single_row C r month = some rec := by
  rw [parseRowsLoop_eq_filterMap] at h
  rcases List.mem_filterMap.mp h with ⟨r, hr, heq⟩
  exact ⟨r, hr, heq⟩

theorem find_header_row_of_no_header (table : List (List (Option String)))
    (h : ∀ r ∈ table, isHeaderRow r = false) :
    find_header_row table = none := by
  induction table with
  | nil => rfl
  | cons r rs ih =>
    simp only [find_header_row, h r (by simp)]
    simp [ih (fun x hx => h x (by simp [hx]))]

theorem find_header_row_first (table : List (List (Option String))) (i : Nat)
    (r : List (Option String)) (hget : table[i]? = some r)
    (hr : isHeaderRow r = true)
    (hbefore : ∀ j r2, j < i → table[j]? = some r2 → isHeaderRow r2 = false) :
    find_header_row table = some i := by
  induction table generalizing i with
  | nil => simp at hget
  | cons x xs ih =>
    cases i with
    | zero =>
      simp only [List.getElem?_cons_zero, Option.some.injEq] at hget
      subst hget
      simp [find_header_row, hr]
    | succ n =>
      have hx : isHeaderRow x = false :=
        hbefore 0 x (Nat.succ_pos n) (by simp)
      simp only [List.getElem?_cons_succ] at hget
      simp only [find_header_row, hx, Bool.false_eq_true, if_false]
      rw [ih n hget (fun j r2 hj hg =>
        hbefore (j + 1) r2 (by omega) (by simpa using hg))]
      rfl

theorem parseSingleRowBody_reject_date (C : Collabs)
    (row : List (Option String)) (month : String)
    (h : cellDateStr (row.getD 0 none) = ""
      ∨ pyLower (cellDateStr (row.getD 0 none)) = "none"
      ∨ pyLower (cellDateStr (row.getD 0 none)) = "null"
      ∨ pyLower (cellDateStr (row.getD 0 none)) = "") :
    parseSingleRowBody C row month = .ok none := by
  unfold parseSingleRowBody
  rw [if_pos h]

theorem parseSingleRowBody_reject_nodigit (C : Collabs)
    (row : List (Option String)) (month : String)
    (h : (cellDateStr (row.getD 0 none)).data.any Char.isDigit = false) :
    parseSingleRowBody C row month = .ok none := by
  unfold parseSingleRowBody
  split
  · rfl
  · rw [h]
    simp

theorem parseSingleRowBody_reject_resolver (C : Collabs)
    (row : List (Option String)) (month : String)
    (h : C.parse_date (cellDateStr (row.getD 0 none)) month = .ok none) :
    parseSingleRowBody C row month = .ok none := by
  unfold parseSingleRowBody
  split
  · rfl
  · split
    · rfl
    · simp only [h]

theorem parseSingleRowBody_reject_resolver_empty (C : Collabs)
    (row : List (Option String)) (month : String)
    (h : C.parse_date (cellDateStr (row.getD 0 none)) month = .ok (some "")) :
    parseSingleRowBody C row month = .ok none := by
  unfold parseSingleRowBody
  split
  · rfl
  · split
    · rfl
    · simp only [h]
      simp

theorem parse_single_row_short (C : Collabs) (row : List (Option String))
    (month : String) (h : row.length < 6) :
    parse_single_row C row month = none := by
  simp [parse_single_row, h]

theorem parse_single_row_of_body_none (C : Collabs)
    (row : List (Option String)) (month : String)
    (h : parseSingleRowBody C row month = .ok none) :
    parse_single_row C row month = none := by
  unfold parse_single_row
  split
  · rfl
  · simp [h]

theorem parse_single_row_of_body_error (C : Collabs)
    (row : List (Option String)) (month : String)
    (h : parseSingleRowBody C row month = .error ()) :
    parse_single_row C row month = none := by
  unfold parse_single_row
  split
  · rfl
  · simp [h]

theorem parseSingleRowBody_ok_some (C : Collabs) (row : List (Option String))
    (month : String) (rec : PrayerRecord)
    (h : parseSingleRowBody C row month = .ok (some rec)) :
    rec.fajr ≠ "" ∧ rec.maghrib ≠ "" ∧ rec.isha ≠ "" ∧
    C.parse_date (cellDateStr (row.getD 0 none)) month = .ok (some rec.date) ∧
    C.clean_time (cellStrOr (row.getD 1 none)) = .ok rec.fajr ∧
    C.clean_time (cellStrOr (row.getD 2 none)) = .ok rec.sunrise ∧
    C.clean_time (cellStrOr (row.getD 3 none)) = .ok rec.dhuhr ∧
    C.clean_time (cellStrOr (row.getD 4 none)) = .ok rec.asr ∧
    C.clean_time (cellStrOr (row.getD 5 none)) = .ok rec.maghrib ∧
    cellDateStr (row.getD 0 none) ≠ "" ∧
    pyLower (cellDateStr (row.getD 0 none)) ≠ "none" ∧
    pyLower (cellDateStr (row.getD 0 none)) ≠ "null" ∧
    (cellDateStr (row.getD 0 none)).data.any Char.isDigit = true ∧
    rec.date ≠ "" ∧ 6 < row.length ∧
    C.clean_time (cellStrOr (row.getD 6 none)) = .ok rec.isha := by
  unfold parseSingleRowBody at h
  split at h
  · simp at h
  · rename_i hdate
    push_neg at hdate
    split at h
    · simp at h
    · rename_i hdig
      split at h
      · simp at h
      · simp at h
      · rename_i parsed_date hpd
        split at h
        · simp at h
        · rename_i hpdne
          split at h
          · simp at h
          · rename_i fajr hfajr
            split at h
            · simp at h
            · rename_i sunrise hsunrise
              split at h
              · simp at h
              · rename_i dhuhr hdhuhr
                split at h
                · simp at h
                · rename_i asr hasr
                  split at h
                  · simp at h
                  · rename_i maghrib hmaghrib
                    split at h
                    · rename_i hgt
                      split at h
                      · simp at h
                      · rename_i isha hisha
                        simp only [Except.ok.injEq] at h
                        unfold assembleRecord at h
                        split at h
                        · rename_i hgate
                          simp only [Option.some.injEq] at h
                          subst h
                          have hdig2 : (cellDateStr (row.getD 0 none)).data.any
                              Char.isDigit = true := by
                            cases hX : (cellDateStr (row.getD 0 none)).data.any
                                Char.isDigit
                            · rw [hX] at hdig
                              exact absurd rfl hdig
                            · rfl
                          exact ⟨hgate.1, hgate.2.1, hgate.2.2, hpd, hfajr,
                            hsunrise, hdhuhr, hasr, hmaghrib, hdate.1,
                            hdate.2.1, hdate.2.2.1, hdig2, hpdne, hgt, hisha⟩
                        · simp at h
                    · simp only [Except.ok.injEq] at h
                      unfold assembleRecord at h
                      split at h
                      · rename_i hgate
                        exact absurd rfl hgate.2.2
                      · simp at h

theorem parse_single_row_some_body (C : Collabs) (row : List (Option String))
    (month : String) (rec : PrayerRecord)
    (h : parse_single_row C row month = some rec) :
    parseSingleRowBody C row month = .ok (some rec) ∧ 6 ≤ row.length := by
  unfold parse_single_row at h
  split at h
  · simp at h
  · rename_i hlen
    split at h
    · simp at h
    · rename_i v heq
      rw [h] at heq
      exact ⟨heq, by omega⟩

/-- C1: every record in the output of `parse_table_rows` has non-empty fajr,
maghrib and isha fields: `_parse_single_row` returns a record only when all
three are non-empty after cleanup, so no record with an empty mandatory field
appears in the table-path result sequence. -/
theorem parse_table_rows_mandatory_nonempty (C : Collabs)
    (table : List (List (Option String))) (month : String)
    (rec : PrayerRecord) (hmem : rec ∈ parse_table_rows C table month) :
    rec.fajr ≠ "" ∧ rec.maghrib ≠ "" ∧ rec.isha ≠ "" := by
  unfold parse_table_rows at hmem
  split at hmem
  · simp at hmem
  · split at hmem
    · simp at hmem
    · rcases mem_parseRowsLoop hmem with ⟨r, _, hr⟩
      rcases parse_single_row_some_body C r month rec hr with ⟨hbody, _⟩
      rcases parseSingleRowBody_ok_some C r month rec hbody with ⟨h1, h2, h3, _⟩
      exact ⟨h1, h2, h3⟩

/-- Witness for C1 at a concrete collaborator pair and table. -/
theorem parse_table_rows_mandatory_nonempty_witness :
    (⟨"03-1", "5:00 AM", "6:15 AM", "12:30 PM", "3:45 PM", "6:30 PM",
      "7:45 PM"⟩ : PrayerRecord).fajr ≠ "" ∧
    (⟨"03-1", "5:00 AM", "6:15 AM", "12:30 PM", "3:45 PM", "6:30 PM",
      "7:45 PM"⟩ : PrayerRecord).maghrib ≠ "" ∧
    (⟨"03-1", "5:00 AM", "6:15 AM", "12:30 PM", "3:45 PM", "6:30 PM",
      "7:45 PM"⟩ : PrayerRecord).isha ≠ "" :=
  parse_table_rows_mandatory_nonempty okCollabs sampleTable "03" _ (by decide)

/-- C2: `parse_table_rows` returns the empty sequence when the table has fewer
than 2 rows or contains no qualifying header row; otherwise the first
qualifying row is the header and exactly the rows strictly after it are passed
to the single-row parser. -/
theorem parse_table_rows_header_selection (C : Collabs)
    (table : List (List (Option String))) (month : String) :
    (table.length < 2 → parse_table_rows C table month = []) ∧
    ((∀ r ∈ table, isHeaderRow r = false) →
      parse_table_rows C table month = []) ∧
    (∀ i r, table[i]? = some r → isHeaderRow r = true →
      (∀ j r2, j < i → table[j]? = some r2 → isHeaderRow r2 = false) →
      2 ≤ table.length →
      parse_table_rows C table month =
        parseRowsLoop C month (table.drop (i + 1))) := by
  refine ⟨?_, ?_, ?_⟩
  · intro h
    simp [parse_table_rows, h]
  · intro h
    unfold parse_table_rows
    split
    · rfl
    · rw [find_header_row_of_no_header table h]
  · intro i r hget hr hbefore hlen
    unfold parse_table_rows
    rw [if_neg (by omega), find_header_row_first table i r hget hr hbefore]

/-- Witness for C2 at a concrete table whose header is row 0. -/
theorem parse_table_rows_header_selection_witness :
    parse_table_rows okCollabs sampleTable "03" =
      parseRowsLoop okCollabs "03" (sampleTable.drop 1) :=
  (parse_table_rows_header_selection okCollabs sampleTable "03").2.2 0
    sampleHeader (by decide) (by decide)
    (fun j r2 hj _ => absurd hj (Nat.not_lt_zero j)) (by decide)

/-- C5: fault isolation in the table path: a data row on which a collaborator
raises is rejected on its own, `parse_table_rows` propagates no exception, and
the rows before and after the faulty one are still parsed. -/
theorem parse_table_rows_fault_isolation (C : Collabs)
    (table : List (List (Option String))) (month : String) (i : Nat)
    (pre post : List (List (Option String))) (r : List (Option String))
    (h2 : 2 ≤ table.length) (hfind : find_header_row table = some i)
    (hsplit : table.drop (i + 1) = pre ++ r :: post)
    (herr : parseSingleRowBody C r month = .error ()) :
    parse_table_rows C table month =
      parseRowsLoop C month pre ++ parseRowsLoop C month post := by
  unfold parse_table_rows
  rw [if_neg (by omega)]
  simp only [hfind]
  rw [hsplit, parseRowsLoop_append]
  have hnone : parse_single_row C r month = none :=
    parse_single_row_of_body_error C r month herr
  simp [parseRowsLoop, hnone]

/-- Witness for C5: with a cleaner that raises on the cell "BOOM", the faulty
middle row is dropped and both neighbouring rows still produce records. -/
theorem parse_table_rows_fault_isolation_witness :
    parse_table_rows boomCollabs sampleTable "03" =
      parseRowsLoop boomCollabs "03" [goodRow1] ++
        parseRowsLoop boomCollabs "03" [goodRow3] :=
  parse_table_rows_fault_isolation boomCollabs sampleTable "03" 0 [goodRow1]
    [goodRow3] badRow (by decide) (by decide) rfl rfl

/-- C6: the rejection conditions of `_parse_single_row`: a row is rejected
when it has fewer than 6 cells, or its date token is empty, equals
case-insensitively "none" or "null", contains no digit, or is rejected by the
external date resolver; and a row that yields a record passed all these
checks. -/
theorem parse_single_row_rejections (C : Collabs)
    (row : List (Option String)) (month : String) :
    (row.length < 6 → parse_single_row C row month = none) ∧
    (cellDateStr (row.getD 0 none) = "" →
      parse_single_row C row month = none) ∧
    (pyLower (cellDateStr (row.getD 0 none)) = "none" →
      parse_single_row C row month = none) ∧
    (pyLower (cellDateStr (row.getD 0 none)) = "null" →
      parse_single_row C row month = none) ∧
    ((cellDateStr (row.getD 0 none)).data.any Char.isDigit = false →
      parse_single_row C row month = none) ∧
    (C.parse_date (cellDateStr (row.getD 0 none)) month = .ok none →
      parse_single_row C row month = none) ∧
    (∀ rec, parse_single_row C row month = some rec →
      6 ≤ row.length ∧ cellDateStr (row.getD 0 none) ≠ "" ∧
      pyLower (cellDateStr (row.getD 0 none)) ≠ "none" ∧
      pyLower (cellDateStr (row.getD 0 none)) ≠ "null" ∧
      (cellDateStr (row.getD 0 none)).data.any Char.isDigit = true ∧
      ∃ d, C.parse_date (cellDateStr (row.getD 0 none)) month =
          .ok (some d) ∧ d ≠ "") := by
  refine ⟨parse_single_row_short C row month, ?_, ?_, ?_, ?_, ?_, ?_⟩
  · intro h
    exact parse_single_row_of_body_none C row month
      (parseSingleRowBody_reject_date C row month (Or.inl h))
  · intro h
    exact parse_single_row_of_body_none C row month
      (parseSingleRowBody_reject_date C row month (Or.inr (Or.inl h)))
  · intro h
    exact parse_single_row_of_body_none C row month
      (parseSingleRowBody_reject_date C row month (Or.inr (Or.inr (Or.inl h))))
  · intro h
    exact parse_single_row_of_body_none C row month
      (parseSingleRowBody_reject_nodigit C row month h)
  · intro h
    exact parse_single_row_of_body_none C row month
      (parseSingleRowBody_reject_resolver C row month h)
  · intro rec h
    rcases parse_single_row_some_body C row month rec h with ⟨hbody, hlen⟩
    rcases parseSingleRowBody_ok_some C row month rec hbody with
      ⟨_, _, _, hpd, _, _, _, _, _, hd1, hd2, hd3, hdig, hdne, _, _⟩
    exact ⟨hlen, hd1, hd2, hd3, hdig, rec.date, hpd, hdne⟩

/-- Witness for C6: a three-cell row is rejected, and the first data row of
the sample table passes every check. -/
theorem parse_single_row_rejections_witness :
    parse_single_row okCollabs [some "1", some "2", some "3"] "03" = none :=
  (parse_single_row_rejections okCollabs [some "1", some "2", some "3"]
    "03").1 (by decide)

/-- A well-formed time-token capture: it starts with a digit and contains an
`[APap]` letter. -/
def tokGood (s : String) : Prop :=
  ∃ c t, s.data = c :: t ∧ c.isDigit = true ∧ (c :: t).any isAP = true

theorem matchDigits12_good (cs : List Char) :
    ∀ p ∈ matchDigits12 cs, ∃ c t, p.1 = c :: t ∧ c.isDigit = true := by
  intro p hp
  cases cs with
  | nil => simp [matchDigits12] at hp
  | cons a rest =>
    simp only [matchDigits12] at hp
    by_cases ha : a.isDigit = true
    · rw [if_pos ha] at hp
      cases rest with
      | nil =>
        simp only [List.mem_singleton] at hp
        subst hp
        exact ⟨a, [], rfl, ha⟩
      | cons b rest2 =>
        by_cases hb : b.isDigit = true
        · simp only [hb, if_true, List.mem_cons, List.mem_singleton,
            List.not_mem_nil, or_false] at hp
          rcases hp with h | h
          · subst h
            exact ⟨a, [b], rfl, ha⟩
          · subst h
            exact ⟨a, [], rfl, ha⟩
        · simp only [hb, Bool.false_eq_true, if_false, List.mem_cons,
            List.mem_singleton, List.not_mem_nil, or_false] at hp
          subst hp
          exact ⟨a, [], rfl, ha⟩
    · rw [if_neg ha] at hp
      simp at hp

theorem matchAP_spec {cs : List Char} {pr : Char × List Char}
    (h : matchAP cs = some pr) : isAP pr.1 = true := by
  cases cs with
  | nil => simp [matchAP] at h
  | cons c rest =>
    simp only [matchAP] at h
    split at h
    · rename_i hc
      injection h with h2
      subst h2
      exact hc
    · simp at h

theorem timeTokenTailM_shape (base r5 : List Char) :
    ∀ p ∈ timeTokenTailM base r5, p.1 = base ∨ ∃ mc, p.1 = base ++ [mc] := by
  intro p hp
  cases hm : matchM r5 with
  | none =>
    simp only [timeTokenTailM, hm, List.mem_singleton] at hp
    subst hp
    exact Or.inl rfl
  | some mr =>
    simp only [timeTokenTailM, hm] at hp
    rcases List.mem_cons.mp hp with h | h
    · subst h
      exact Or.inr ⟨mr.1, rfl⟩
    · simp only [List.mem_singleton] at h
      subst h
      exact Or.inl rfl

theorem timeTokenTailAP_good (d ab r3 : List Char) (c : Char) (t : List Char)
    (hd : d = c :: t) :
    ∀ p ∈ timeTokenTailAP d ab r3,
      ∃ t2, p.1 = c :: t2 ∧ (c :: t2).any isAP = true := by
  intro p hp
  cases hap : matchAP (r3.dropWhile isPySpace) with
  | none => simp [timeTokenTailAP, hap] at hp
  | some pr =>
    simp only [timeTokenTailAP, hap] at hp
    have hisap : isAP pr.1 = true := matchAP_spec hap
    rcases timeTokenTailM_shape _ _ p hp with h | ⟨mc, h⟩
    · refine ⟨t ++ ':' :: ab ++ r3.takeWhile isPySpace ++ [pr.1], ?_, ?_⟩
      · rw [h, hd]
        simp
      · exact List.any_eq_true.mpr ⟨pr.1, by simp, hisap⟩
    · refine ⟨t ++ ':' :: ab ++ r3.takeWhile isPySpace ++ [pr.1] ++ [mc],
        ?_, ?_⟩
      · rw [h, hd]
        simp
      · exact List.any_eq_true.mpr ⟨pr.1, by simp, hisap⟩

theorem timeTokenTailMin_good (d r2 : List Char) (c : Char) (t : List Char)
    (hd : d = c :: t) :
    ∀ p ∈ timeTokenTailMin d r2,
      ∃ t2, p.1 = c :: t2 ∧ (c :: t2).any isAP = true := by
  intro p hp
  cases habr : matchDigits2 r2 with
  | none => simp [timeTokenTailMin, habr] at hp
  | some abr =>
    simp only [timeTokenTailMin, habr] at hp
    exact timeTokenTailAP_good d abr.1 abr.2 c t hd p hp

theorem matchTimeToken_good (cs : List Char) :
    ∀ p ∈ matchTimeToken cs,
      ∃ c t, p.1 = c :: t ∧ c.isDigit = true ∧ (c :: t).any isAP = true := by
  intro p hp
  unfold matchTimeToken at hp
  rcases List.mem_flatMap.mp hp with ⟨dr, hdr, hin⟩
  rcases matchDigits12_good cs dr hdr with ⟨c, t, hd, hcdig⟩
  cases hlit : matchLit ':' dr.2 with
  | none =>
    rw [hlit] at hin
    simp at hin
  | some r2 =>
    rw [hlit] at hin
    rcases timeTokenTailMin_good dr.1 r2 c t hd p hin with ⟨t2, h1, h2⟩
    exact ⟨c, t2, h1, hcdig, h2⟩

theorem matchSepTime_good (cs : List Char) :
    ∀ p ∈ matchSepTime cs,
      ∃ c t, p.1 = c :: t ∧ c.isDigit = true ∧ (c :: t).any isAP = true := by
  intro p hp
  unfold matchSepTime at hp
  cases hs : matchSpaces1 cs with
  | none =>
    rw [hs] at hp
    simp at hp
  | some r =>
    rw [hs] at hp
    exact matchTimeToken_good r p hp

theorem matchLeading_good (cs : List Char) :
    ∀ p ∈ matchLeading cs,
      tokGood p.1.fajr ∧ tokGood p.1.sunrise ∧ tokGood p.1.dhuhr ∧
      tokGood p.1.asr ∧ p.1.maghrib = "" ∧ p.1.isha = "" := by
  intro p hp
  unfold matchLeading at hp
  rcases List.mem_flatMap.mp hp with ⟨dm, hdm, hin⟩
  cases hs : matchSpaces1 dm.2 with
  | none =>
    rw [hs] at hin
    simp at hin
  | some r1 =>
    rw [hs] at hin
    rcases List.mem_flatMap.mp hin with ⟨fj, hfj, hin2⟩
    rcases List.mem_flatMap.mp hin2 with ⟨sr, hsr, hin3⟩
    rcases List.mem_flatMap.mp hin3 with ⟨dh, hdh, hin4⟩
    rcases List.mem_map.mp hin4 with ⟨ar, har, heq⟩
    subst heq
    rcases matchTimeToken_good r1 fj hfj with ⟨c1, t1, h1, hd1, ha1⟩
    rcases matchSepTime_good fj.2 sr hsr with ⟨c2, t2, h2, hd2, ha2⟩
    rcases matchSepTime_good sr.2 dh hdh with ⟨c3, t3, h3, hd3, ha3⟩
    rcases matchSepTime_good dh.2 ar har with ⟨c4, t4, h4, hd4, ha4⟩
    exact ⟨⟨c1, t1, by simp [h1], hd1, ha1⟩, ⟨c2, t2, by simp [h2], hd2, ha2⟩,
      ⟨c3, t3, by simp [h3], hd3, ha3⟩, ⟨c4, t4, by simp [h4], hd4, ha4⟩,
      rfl, rfl⟩

theorem matchOptTail_ne_nil (cs : List Char) : matchOptTail cs ≠ [] := by
  unfold matchOptTail
  intro h
  rcases List.append_eq_nil.mp h with ⟨h1, h2⟩
  simp at h2

theorem matchOptTail_head_good (cs : List Char)
    (q : (String × String) × List Char)
    (h : (matchOptTail cs).head? = some q) :
    (q.1.1 = "" ∧ q.1.2 = "") ∨ (tokGood q.1.1 ∧ q.1.2 = "") ∨
      (tokGood q.1.1 ∧ tokGood q.1.2) := by
  unfold matchOptTail at h
  cases hst : matchSepTime cs with
  | nil =>
    rw [hst] at h
    simp only [List.flatMap_nil, List.map_nil, List.nil_append,
      List.head?_cons, Option.some.injEq] at h
    subst h
    exact Or.inl ⟨rfl, rfl⟩
  | cons mgp rest =>
    rw [hst] at h
    have hmgp : mgp ∈ matchSepTime cs := by
      rw [hst]
      exact List.mem_cons_self mgp rest
    rcases matchSepTime_good cs mgp hmgp with ⟨c1, t1, h1, hd1, ha1⟩
    simp only [List.flatMap_cons] at h
    cases hst2 : matchSepTime mgp.2 with
    | nil =>
      rw [hst2] at h
      simp only [List.map_nil, List.nil_append, List.cons_append,
        List.head?_cons, Option.some.injEq] at h
      subst h
      exact Or.inr (Or.inl ⟨⟨c1, t1, by simp [h1], hd1, ha1⟩, rfl⟩)
    | cons ihp rest2 =>
      have hihp : ihp ∈ matchSepTime mgp.2 := by
        rw [hst2]
        exact List.mem_cons_self ihp rest2
      rcases matchSepTime_good mgp.2 ihp hihp with ⟨c2, t2, h2, hd2, ha2⟩
      rw [hst2] at h
      simp only [List.map_cons, List.cons_append, List.head?_cons,
        Option.some.injEq] at h
      subst h
      exact Or.inr (Or.inr ⟨⟨c1, t1, by simp [h1], hd1, ha1⟩,
        ⟨c2, t2, by simp [h2], hd2, ha2⟩⟩)

theorem matchPatternAt_good (cs : List Char) (m : PatMatch) (r : List Char)
    (h : matchPatternAt cs = some (m, r)) :
    tokGood m.fajr ∧ tokGood m.sunrise ∧ tokGood m.dhuhr ∧ tokGood m.asr ∧
    ((m.maghrib = "" ∧ m.isha = "") ∨ (tokGood m.maghrib ∧ m.isha = "") ∨
      (tokGood m.maghrib ∧ tokGood m.isha)) := by
  unfold matchPatternAt matchAttempt at h
  cases hl : matchLeading cs with
  | nil =>
    rw [hl] at h
    simp at h
  | cons pr rest =>
    rw [hl] at h
    have hpr : pr ∈ matchLeading cs := by
      rw [hl]
      exact List.mem_cons_self pr rest
    rcases matchLeading_good cs pr hpr with ⟨hf, hs2, hd2, ha2, hmg, hih⟩
    simp only [List.flatMap_cons] at h
    cases hot : matchOptTail pr.2 with
    | nil => exact absurd hot (matchOptTail_ne_nil pr.2)
    | cons q qs =>
      rw [hot] at h
      simp only [List.map_cons, List.cons_append, List.head?_cons,
        Option.some.injEq, Prod.mk.injEq] at h
      have hq : (matchOptTail pr.2).head? = some q := by
        rw [hot]
        rfl
      rcases matchOptTail_head_good pr.2 q hq with hcase | hcase | hcase
      · rw [← h.1]
        exact ⟨hf, hs2, hd2, ha2, Or.inl ⟨hcase.1, hcase.2⟩⟩
      · rw [← h.1]
        exact ⟨hf, hs2, hd2, ha2, Or.inr (Or.inl ⟨hcase.1, hcase.2⟩)⟩
      · rw [← h.1]
        exact ⟨hf, hs2, hd2, ha2, Or.inr (Or.inr ⟨hcase.1, hcase.2⟩)⟩

theorem findAllAux_good (fuel : Nat) (cs : List Char) :
    ∀ m ∈ findAllAux fuel cs,
      tokGood m.fajr ∧ tokGood m.sunrise ∧ tokGood m.dhuhr ∧ tokGood m.asr ∧
      ((m.maghrib = "" ∧ m.isha = "") ∨ (tokGood m.maghrib ∧ m.isha = "") ∨
        (tokGood m.maghrib ∧ tokGood m.isha)) := by
  induction fuel generalizing cs with
  | zero =>
    intro m hm
    simp [findAllAux] at hm
  | succ n ih =>
    intro m hm
    cases cs with
    | nil => simp [findAllAux] at hm
    | cons c rest =>
      unfold findAllAux at hm
      cases hma : matchPatternAt (c :: rest) with
      | none =>
        rw [hma] at hm
        exact ih rest m hm
      | some pr =>
        rw [hma] at hm
        rcases List.mem_cons.mp hm with h | h
        · subst h
          exact matchPatternAt_good _ pr.1 pr.2 (by rw [hma])
        · exact ih pr.2 m h

theorem mem_extract_from_text_pattern {text month : String}
    {rec : PrayerRecord} (h : rec ∈ extract_from_text_pattern text month) :
    ∃ m ∈ findAllStr text, rec = mkRecord month m := by
  unfold extract_from_text_pattern at h
  rw [extractLoop_eq_map] at h
  rcases List.mem_map.mp h with ⟨m, hm, heq⟩
  exact ⟨m, hm, heq.symm⟩

theorem isPySpace_eq_false_of_isDigit {c : Char} (h : c.isDigit = true) :
    isPySpace c = false := by
  by_contra hne
  rw [Bool.not_eq_false] at hne
  unfold isPySpace at hne
  simp only [Bool.or_eq_true, decide_eq_true_eq] at hne
  rcases hne with ((((h1 | h1) | h1) | h1) | h1) | h1 <;>
    subst h1 <;> simp at h

theorem isPySpace_eq_false_of_isAP {c : Char} (h : isAP c = true) :
    isPySpace c = false := by
  unfold isAP at h
  simp only [Bool.or_eq_true, decide_eq_true_eq] at h
  rcases h with ((h1 | h1) | h1) | h1 <;> subst h1 <;> rfl

theorem any_dropWhile_of_imp (p q : Char → Bool)
    (hpq : ∀ c, p c = true → q c = false) (l : List Char)
    (h : l.any p = true) : (l.dropWhile q).any p = true := by
  induction l with
  | nil => simp at h
  | cons c t ihl =>
    rw [List.dropWhile_cons]
    by_cases hq : q c = true
    · rw [if_pos hq]
      apply ihl
      have h2 := h
      rw [List.any_cons] at h2
      rcases Bool.or_eq_true_iff.mp h2 with hc | ht
      · rw [hpq c hc] at hq
        exact absurd hq (by simp)
      · exact ht
    · rw [if_neg hq]
      exact h

theorem any_reverse_eq (p : Char → Bool) (l : List Char) :
    l.reverse.any p = l.any p := by
  rcases hcase : l.any p with _ | _
  · rw [Bool.eq_false_iff]
    intro hx
    rcases List.any_eq_true.mp hx with ⟨x, hmem, hpx⟩
    have : l.any p = true :=
      List.any_eq_true.mpr ⟨x, List.mem_reverse.mp hmem, hpx⟩
    rw [hcase] at this
    exact Bool.false_ne_true this
  · rcases List.any_eq_true.mp hcase with ⟨x, hmem, hpx⟩
    exact List.any_eq_true.mpr ⟨x, List.mem_reverse.mpr hmem, hpx⟩

theorem pyStrip_any_isAP {s : String} (h : s.data.any isAP = true) :
    (pyStrip s).data.any isAP = true := by
  have hfn : ∀ c, isAP c = true → isPySpace c = false :=
    fun c hc => isPySpace_eq_false_of_isAP hc
  have h1 := any_dropWhile_of_imp isAP isPySpace hfn s.data h
  have h2 : ((s.data.dropWhile isPySpace).reverse).any isAP = true := by
    rw [any_reverse_eq]
    exact h1
  have h3 := any_dropWhile_of_imp isAP isPySpace hfn _ h2
  show ((((s.data.dropWhile isPySpace).reverse.dropWhile
    isPySpace).reverse)).any isAP = true
  rw [any_reverse_eq]
  exact h3

theorem pyStrip_ne_empty_of_digit_head {s : String} {c : Char} {t : List Char}
    (hd : s.data = c :: t) (hc : c.isDigit = true) : pyStrip s ≠ "" := by
  intro h
  have hl : (((s.data.dropWhile isPySpace).reverse.dropWhile
      isPySpace).reverse) = [] := by
    have h2 := congrArg String.data h
    simpa [pyStrip] using h2
  rw [hd] at hl
  rw [List.dropWhile_cons] at hl
  rw [isPySpace_eq_false_of_isDigit hc] at hl
  simp only [Bool.false_eq_true, if_false] at hl
  have h2 : ((c :: t).reverse.dropWhile isPySpace) = [] := by
    have h3 := congrArg List.reverse hl
    simpa using h3
  have h4 : isPySpace c = true := by
    have h5 := List.dropWhile_eq_nil_iff.mp h2
    exact h5 c (by simp)
  rw [isPySpace_eq_false_of_isDigit hc] at h4
  exact Bool.false_ne_true h4

/-- C10: in every record emitted by `extract_from_text_pattern`, a non-empty
isha implies a non-empty maghrib: the two trailing optional groups are tried
greedily in order, so a single trailing time token always binds to maghrib. -/
theorem extract_isha_implies_maghrib (text month : String) :
    ∀ rec ∈ extract_from_text_pattern text month,
      rec.isha ≠ "" → rec.maghrib ≠ "" := by
  intro rec hrec hisha
  rcases mem_extract_from_text_pattern hrec with ⟨m, hm, heq⟩
  subst heq
  rcases findAllAux_good _ _ m hm with ⟨_, _, _, _, hopt⟩
  rcases hopt with ⟨hmg, hih⟩ | ⟨hmg, hih⟩ | ⟨hmg, hih⟩
  · exact absurd (by simp [mkRecord, hih]) hisha
  · exact absurd (by simp [mkRecord, hih]) hisha
  · rcases hmg with ⟨c, t, hdt, hcd, _⟩
    have hne : m.maghrib ≠ "" := by
      intro hmge
      rw [hmge] at hdt
      simp at hdt
    show (mkRecord month m).maghrib ≠ ""
    simp only [mkRecord]
    rw [if_neg hne]
    exact pyStrip_ne_empty_of_digit_head hdt hcd

/-- Witness for C10 at the spec's scenario 4 text. -/
theorem extract_isha_implies_maghrib_witness :
    (⟨"03-03", "5:00AM", "6:15AM", "12:30PM", "3:45PM", "6:30PM",
      "7:45PM"⟩ : PrayerRecord).maghrib ≠ "" :=
  extract_isha_implies_maghrib
    "3-Mar 5:00AM 6:15AM 12:30PM 3:45PM 6:30PM 7:45PM" "03" _ (by decide)
    (by decide)

/-- C3 counterexample: a valid day marker followed by four suffix-less `H:MM`
tokens yields no record — the `A`/`P` letter of the suffix is mandatory, only
the trailing `M` is optional, as the same text with bare `A`/`P` letters
shows. -/
theorem extract_requires_AP_letter_counterexample :
    extract_from_text_pattern "3-Mar 5:00 6:15 12:30 3:45" "03" = [] ∧
    extract_from_text_pattern "3-Mar 5:00A 6:15A 12:30P 3:45P" "03" =
      [⟨"03-03", "5:00A", "6:15A", "12:30P", "3:45P", "", ""⟩] :=
  ⟨by decide, by decide⟩

/-- C3 amended: a time token of the fallback pattern requires the AM/PM
letter: every mandatory time field of every emitted record contains an `A` or
`P` letter (case-insensitive), and so do maghrib and isha whenever they are
non-empty; only the trailing `M` of the suffix is optional. -/
theorem extract_time_fields_have_AP_letter (text month : String) :
    ∀ rec ∈ extract_from_text_pattern text month,
      rec.fajr.data.any isAP = true ∧ rec.sunrise.data.any isAP = true ∧
      rec.dhuhr.data.any isAP = true ∧ rec.asr.data.any isAP = true ∧
      (rec.maghrib = "" ∨ rec.maghrib.data.any isAP = true) ∧
      (rec.isha = "" ∨ rec.isha.data.any isAP = true) := by
  intro rec hrec
  rcases mem_extract_from_text_pattern hrec with ⟨m, hm, heq⟩
  subst heq
  rcases findAllAux_good _ _ m hm with ⟨hf, hs, hd, ha, hopt⟩
  have tokAny : ∀ s : String, tokGood s → s.data.any isAP = true := by
    intro s hg
    rcases hg with ⟨c, t, hdt, _, hany⟩
    rw [hdt]
    exact hany
  have tokNe : ∀ s : String, tokGood s → s ≠ "" := by
    intro s hg hse
    rcases hg with ⟨c, t, hdt, _, _⟩
    rw [hse] at hdt
    simp at hdt
  refine ⟨pyStrip_any_isAP (tokAny _ hf), pyStrip_any_isAP (tokAny _ hs),
    pyStrip_any_isAP (tokAny _ hd), pyStrip_any_isAP (tokAny _ ha), ?_, ?_⟩
  · rcases hopt with ⟨hmg, _⟩ | ⟨hmg, _⟩ | ⟨hmg, _⟩
    · exact Or.inl (by simp [mkRecord, hmg])
    · right
      show (if m.maghrib = "" then "" else pyStrip m.maghrib).data.any isAP
        = true
      rw [if_neg (tokNe _ hmg)]
      exact pyStrip_any_isAP (tokAny _ hmg)
    · right
      show (if m.maghrib = "" then "" else pyStrip m.maghrib).data.any isAP
        = true
      rw [if_neg (tokNe _ hmg)]
      exact pyStrip_any_isAP (tokAny _ hmg)
  · rcases hopt with ⟨_, hih⟩ | ⟨_, hih⟩ | ⟨_, hih⟩
    · exact Or.inl (by simp [mkRecord, hih])
    · exact Or.inl (by simp [mkRecord, hih])
    · right
      show (if m.isha = "" then "" else pyStrip m.isha).data.any isAP = true
      rw [if_neg (tokNe _ hih)]
      exact pyStrip_any_isAP (tokAny _ hih)

/-- Witness for the amended C3: the record extracted from tokens with bare
`A`/`P` suffix letters has the letter in every time field. -/
theorem extract_time_fields_have_AP_letter_witness :
    (⟨"03-03", "5:00A", "6:15A", "12:30P", "3:45P", "", ""⟩ :
      PrayerRecord).fajr.data.any isAP = true ∧
    (⟨"03-03", "5:00A", "6:15A", "12:30P", "3:45P", "", ""⟩ :
      PrayerRecord).sunrise.data.any isAP = true ∧
    (⟨"03-03", "5:00A", "6:15A", "12:30P", "3:45P", "", ""⟩ :
      PrayerRecord).dhuhr.data.any isAP = true ∧
    (⟨"03-03", "5:00A", "6:15A", "12:30P", "3:45P", "", ""⟩ :
      PrayerRecord).asr.data.any isAP = true ∧
    ((⟨"03-03", "5:00A", "6:15A", "12:30P", "3:45P", "", ""⟩ :
      PrayerRecord).maghrib = "" ∨
      (⟨"03-03", "5:00A", "6:15A", "12:30P", "3:45P", "", ""⟩ :
        PrayerRecord).maghrib.data.any isAP = true) ∧
    ((⟨"03-03", "5:00A", "6:15A", "12:30P", "3:45P", "", ""⟩ :
      PrayerRecord).isha = "" ∨
      (⟨"03-03", "5:00A", "6:15A", "12:30P", "3:45P", "", ""⟩ :
        PrayerRecord).isha.data.any isAP = true) :=
  extract_time_fields_have_AP_letter "3-Mar 5:00A 6:15A 12:30P 3:45P" "03" _
    (by decide)

/-- C7: each emitted date is the caller-supplied month, a hyphen, and the
two-digit day from whichever day capture is non-empty; the captured month
abbreviations are never consulted. -/
theorem extract_date_trusts_caller_month (text month : String) :
    ∀ rec ∈ extract_from_text_pattern text month,
      ∃ m ∈ findAllStr text,
        rec = mkRecord month m ∧
        rec.date = month ++ "-" ++
          pad2 (strToNat (if m.day1 ≠ "" then m.day1 else m.day2)) ∧
        ∀ a b, mkRecord month { m with mon1 := a, mon2 := b } = rec := by
  intro rec hrec
  rcases mem_extract_from_text_pattern hrec with ⟨m, hm, heq⟩
  subst heq
  exact ⟨m, hm, rfl, rfl, fun a b => rfl⟩

/-- Witness for C7: a January-labelled day marker still yields a March date
when the caller supplies month "03". -/
theorem extract_date_trusts_caller_month_witness :
    ∃ m ∈ findAllStr "5-Jan 5:00AM 6:15AM 12:30PM 3:45PM",
      (⟨"03-05", "5:00AM", "6:15AM", "12:30PM", "3:45PM", "", ""⟩ :
        PrayerRecord) = mkRecord "03" m ∧
      (⟨"03-05", "5:00AM", "6:15AM", "12:30PM", "3:45PM", "", ""⟩ :
        PrayerRecord).date = "03" ++ "-" ++
        pad2 (strToNat (if m.day1 ≠ "" then m.day1 else m.day2)) ∧
      ∀ a b, mkRecord "03" { m with mon1 := a, mon2 := b } =
        (⟨"03-05", "5:00AM", "6:15AM", "12:30PM", "3:45PM", "", ""⟩ :
          PrayerRecord) :=
  extract_date_trusts_caller_month "5-Jan 5:00AM 6:15AM 12:30PM 3:45PM" "03"
    _ (by decide)

/-- C8: one record per pattern match with no mandatory-field filter: the
output length always equals the number of matches, and a match without the
optional trailing tokens still yields a record, with empty maghrib and
isha (the spec's scenario 5). -/
theorem extract_one_record_per_match :
    (∀ text month, (extract_from_text_pattern text month).length =
      (findAllStr text).length) ∧
    extract_from_text_pattern "Mar-4 5:00AM 6:15AM 12:30PM 3:45PM" "03" =
      [⟨"03-04", "5:00AM", "6:15AM", "12:30PM", "3:45PM", "", ""⟩] := by
  constructor
  · intro text month
    unfold extract_from_text_pattern
    rw [extractLoop_eq_map, List.length_map]
  · decide

/-- C9: order preservation: the table-path output is the in-order filterMap
of the rows after the header, and the text-path output is the in-order map of
the matches; neither path sorts or deduplicates. -/
theorem extraction_order_preserved :
    (∀ (C : Collabs) (table : List (List (Option String))) (month : String)
        (i : Nat), 2 ≤ table.length → find_header_row table = some i →
        parse_table_rows C table month =
          (table.drop (i + 1)).filterMap
            (fun r => parse_single_row C r month)) ∧
    (∀ text month, extract_from_text_pattern text month =
        (findAllStr text).map (mkRecord month)) := by
  constructor
  · intro C table month i h2 hf
    unfold parse_table_rows
    rw [if_neg (by omega)]
    simp only [hf]
    exact parseRowsLoop_eq_filterMap C month _
  · intro text month
    unfold extract_from_text_pattern
    exact extractLoop_eq_map month _

/-- Witness for C9 at the concrete sample table. -/
theorem extraction_order_preserved_witness :
    parse_table_rows okCollabs sampleTable "03" =
      (sampleTable.drop 1).filterMap
        (fun r => parse_single_row okCollabs r "03") :=
  extraction_order_preserved.1 okCollabs sampleTable "03" 0 (by decide)
    (by decide)

/-- Modelled from the spec: §2 ("Normalization helpers (external) — date
resolution and time cleanup, invoked by both extractors") describes a
fallback extractor that routes each matched time token through the time
cleaner and produces the date via the date resolver.  This definition follows
those words, to be compared with the source's `extract_from_text_pattern`. -/
def extract_from_text_pattern_spec (ct : String → String)
    (pd : String → String → Option String) (text month : String) :
    List PrayerRecord :=
  (findAllStr text).map fun m =>
    { date := (pd (if m.day1 ≠ "" then m.day1 else m.day2) month).getD ""
    , fajr := ct m.fajr
    , sunrise := ct m.sunrise
    , dhuhr := ct m.dhuhr
    , asr := ct m.asr
    , maghrib := if m.maghrib = "" then "" else ct m.maghrib
    , isha := if m.isha = "" then "" else ct m.isha }

/-- C4 counterexample: with a legitimate (idempotent) time cleaner that maps
every token to `""`, the code's output differs from the spec-modelled
cleaner-invoking extractor: the code emits the raw stripped token "5:00AM",
not the cleaner's result. -/
theorem extract_ignores_cleaner_counterexample :
    extract_from_text_pattern
        "3-Mar 5:00AM 6:15AM 12:30PM 3:45PM 6:30PM 7:45PM" "03" ≠
      extract_from_text_pattern_spec (fun _ => "")
        (fun d mo => some (mo ++ "-" ++ d))
        "3-Mar 5:00AM 6:15AM 12:30PM 3:45PM 6:30PM 7:45PM" "03" := by
  decide

/-- C4 amended: only the table path invokes the normalization helpers — every
accepted row's time fields are `clean_time` outputs and its date a
`parse_date` output — while `extract_from_text_pattern` invokes neither: its
time fields are the matched tokens stripped of surrounding whitespace and its
date is formatted locally from the caller-supplied month. -/
theorem normalization_helpers_table_path_only (C : Collabs)
    (row : List (Option String)) (month : String) (rec : PrayerRecord) :
    (parse_single_row C row month = some rec →
      C.parse_date (cellDateStr (row.getD 0 none)) month =
        .ok (some rec.date) ∧
      C.clean_time (cellStrOr (row.getD 1 none)) = .ok rec.fajr ∧
      C.clean_time (cellStrOr (row.getD 2 none)) = .ok rec.sunrise ∧
      C.clean_time (cellStrOr (row.getD 3 none)) = .ok rec.dhuhr ∧
      C.clean_time (cellStrOr (row.getD 4 none)) = .ok rec.asr ∧
      C.clean_time (cellStrOr (row.getD 5 none)) = .ok rec.maghrib ∧
      C.clean_time (cellStrOr (row.getD 6 none)) = .ok rec.isha) ∧
    (∀ text, rec ∈ extract_from_text_pattern text month →
      ∃ m ∈ findAllStr text,
        rec.fajr = pyStrip m.fajr ∧ rec.sunrise = pyStrip m.sunrise ∧
        rec.dhuhr = pyStrip m.dhuhr ∧ rec.asr = pyStrip m.asr ∧
        rec.maghrib = (if m.maghrib = "" then "" else pyStrip m.maghrib) ∧
        rec.isha = (if m.isha = "" then "" else pyStrip m.isha) ∧
        rec.date = month ++ "-" ++
          pad2 (strToNat (if m.day1 ≠ "" then m.day1 else m.day2))) := by
  constructor
  · intro h
    rcases parse_single_row_some_body C row month rec h with ⟨hbody, _⟩
    rcases parseSingleRowBody_ok_some C row month rec hbody with
      ⟨_, _, _, hpd, hfj, hsr, hdh, har, hmg, _, _, _, _, _, _, hih⟩
    exact ⟨hpd, hfj, hsr, hdh, har, hmg, hih⟩
  · intro text hrec
    rcases mem_extract_from_text_pattern hrec with ⟨m, hm, heq⟩
    subst heq
    exact ⟨m, hm, rfl, rfl, rfl, rfl, rfl, rfl, rfl⟩

/-- Witness for the amended C4 at the concrete collaborators and first sample
data row. -/
theorem normalization_helpers_table_path_only_witness :
    okCollabs.parse_date (cellDateStr (goodRow1.getD 0 none)) "03" =
      .ok (some (⟨"03-1", "5:00 AM", "6:15 AM", "12:30 PM", "3:45 PM",
        "6:30 PM", "7:45 PM"⟩ : PrayerRecord).date) ∧
    okCollabs.clean_time (cellStrOr (goodRow1.getD 1 none)) =
      .ok (⟨"03-1", "5:00 AM", "6:15 AM", "12:30 PM", "3:45 PM", "6:30 PM",
        "7:45 PM"⟩ : PrayerRecord).fajr ∧
    okCollabs.clean_time (cellStrOr (goodRow1.getD 2 none)) =
      .ok (⟨"03-1", "5:00 AM", "6:15 AM", "12:30 PM", "3:45 PM", "6:30 PM",
        "7:45 PM"⟩ : PrayerRecord).sunrise ∧
    okCollabs.clean_time (cellStrOr (goodRow1.getD 3 none)) =
      .ok (⟨"03-1", "5:00 AM", "6:15 AM", "12:30 PM", "3:45 PM", "6:30 PM",
        "7:45 PM"⟩ : PrayerRecord).dhuhr ∧
    okCollabs.clean_time (cellStrOr (goodRow1.getD 4 none)) =
      .ok (⟨"03-1", "5:00 AM", "6:15 AM", "12:30 PM", "3:45 PM", "6:30 PM",
        "7:45 PM"⟩ : PrayerRecord).asr ∧
    okCollabs.clean_time (cellStrOr (goodRow1.getD 5 none)) =
      .ok (⟨"03-1", "5:00 AM", "6:15 AM", "12:30 PM", "3:45 PM", "6:30 PM",
        "7:45 PM"⟩ : PrayerRecord).maghrib ∧
    okCollabs.clean_time (cellStrOr (goodRow1.getD 6 none)) =
      .ok (⟨"03-1", "5:00 AM", "6:15 AM", "12:30 PM", "3:45 PM", "6:30 PM",
        "7:45 PM"⟩ : PrayerRecord).isha :=
  (normalization_helpers_table_path_only okCollabs goodRow1 "03"
    ⟨"03-1", "5:00 AM", "6:15 AM", "12:30 PM", "3:45 PM", "6:30 PM",
      "7:45 PM"⟩).1 (by decide)
